import Mathlib

/-!
Verification development for the media-shortcode plugin (`src/main.ts`).

The source is TypeScript operating on DOM attribute strings.  We embed the
string-processing core shallowly: every JavaScript string primitive used by
the code (`split`, `trim`, `toLowerCase`, `replace` with the concrete regular
expressions appearing in the source, `includes`) is modelled as an executable
Lean function on `List Char` / `String`, and each source function
(`parseImageData`, `parseAltAttributes`, `generateSlug`, `extractWikilinks`,
`processGridImage`'s path/param split, `createVideoContent`,
`createYouTubeEmbed`, `createVimeoEmbed`, the width-attribute sync in the
mutation observer) is translated clause by clause.  The host regular
expression engine used for the configurable `settings.captionRegex` is the
one external facility we cannot model for arbitrary patterns; it is passed
in as an explicit oracle (`engine : String → String → RegexOutcome`), where
the `throws` outcome models `new RegExp(pattern)` raising on a malformed
pattern.  All other regular expressions in the source are fixed literals and
are translated directly.

Unicode caveat: JavaScript's `toLowerCase`, `trim` and `\s`/`\w` classes
handle some non-ASCII code points; the model uses the ASCII behaviour
(`Char.toLower`, `Char.isWhitespace`), which coincides with JavaScript on
all ASCII input.
-/

/-! ## Basic JavaScript string primitives on character lists -/

/-- Characters removed by `String.prototype.trim` (ASCII fragment). -/
def jsWs (c : Char) : Bool := c.isWhitespace

/-- Model of `s.trim()` on a character list. -/
def trimChars (l : List Char) : List Char :=
  ((l.dropWhile jsWs).reverse.dropWhile jsWs).reverse

/-- Model of `s.trim()` on strings. -/
def jsTrim (s : String) : String := String.mk (trimChars s.data)

/-- Model of `s.split(sep)` for a one-character separator: JavaScript's
`"".split(x) = [""]`, `"|".split("|") = ["", ""]`, etc. -/
def splitOnChar (sep : Char) : List Char → List (List Char)
  | [] => [[]]
  | c :: r =>
    let rest := splitOnChar sep r
    if c = sep then [] :: rest
    else
      match rest with
      | h :: t => (c :: h) :: t
      | [] => [[c]]

/-- Model of `parts.join(sep)` for a one-character separator. -/
def joinSep (sep : Char) : List (List Char) → List Char
  | [] => []
  | [x] => x
  | x :: xs => x ++ sep :: joinSep sep xs

/-- Model of `s.toLowerCase()` (ASCII fragment). -/
def lowerChars (l : List Char) : List Char := l.map Char.toLower

/-- Whether a list starts with the given character. -/
def headIs (c : Char) : List Char → Bool
  | [] => false
  | x :: _ => x == c

/-- First `some` in a list of attempts (used to model regex backtracking
priority: alternatives are tried in order, first success wins). -/
def firstSome {α : Type} : List (Option α) → Option α
  | [] => none
  | some a :: _ => some a
  | none :: r => firstSome r

/-- The list `[n, n-1, ..., 0]`: the order in which a greedy `\s*` tries
how many characters to consume (most first, backtracking down to none). -/
def downFrom : Nat → List Nat
  | 0 => [0]
  | n + 1 => (n + 1) :: downFrom n

/-- Number of leading whitespace characters (maximal `\s*` consumption). -/
def wsCount (l : List Char) : Nat := (l.takeWhile jsWs).length

/-- Model of `s.replace(/\s+/g, " ")`: every maximal whitespace run becomes
a single space. -/
def collapseWsL : List Char → List Char
  | [] => []
  | c :: r =>
    if jsWs c then
      if headIs ' ' r || (match r with | [] => false | x :: _ => jsWs x) then
        collapseWsL r
      else ' ' :: collapseWsL r
    else c :: collapseWsL r

/-- Model of `s.replace(pat, rep)` for a plain-text pattern (replaces the
first occurrence only, as the source's non-global `/ > /` regex does). -/
def replaceFirstAux (pat rep : List Char) : List Char → List Char
  | [] => []
  | c :: r =>
    if pat.isPrefixOf (c :: r) then rep ++ (c :: r).drop pat.length
    else c :: replaceFirstAux pat rep r

/-- Model of `s.replace(pat, rep)` (first occurrence) on strings. -/
def replaceFirst (s pat rep : String) : String :=
  String.mk (replaceFirstAux pat.data rep.data s.data)

/-- Helper for `String.prototype.includes`. -/
def incAux (p : List Char) : List Char → Bool
  | [] => p.isPrefixOf ([] : List Char)
  | c :: r => p.isPrefixOf (c :: r) || incAux p r

/-- Model of `s.includes(pat)`. -/
def strIncludes (s pat : String) : Bool := incAux pat.data s.data

/-! ## Slug generator (`generateSlug`, main.ts lines 238-246)

```ts
const filename = src.split("/").pop() || src;
const nameWithoutExt = filename.replace(/\.[^.]+$/, "");
return nameWithoutExt.toLowerCase()
  .replace(hyphen-run regex, "-") twice over: first every character outside
  [a-z0-9] becomes "-", then hyphen runs collapse, then edge hyphens drop;
```
-/

/-- Model of `filename.replace(/\.[^.]+$/, "")`: strip a final dot followed
by one or more non-dot characters; otherwise leave the input unchanged. -/
def stripJsExtChars (l : List Char) : List Char :=
  let r := l.reverse
  let tl := r.takeWhile (fun c => !(c == '.'))
  match r.drop tl.length with
  | '.' :: stemRev => if tl = [] then l else stemRev.reverse
  | _ => l

/-- One step of `replace(/[^a-z0-9]/g, "-")` (applied after lowering). -/
def slugChar (c : Char) : Char :=
  if ('a' ≤ c ∧ c ≤ 'z') ∨ ('0' ≤ c ∧ c ≤ '9') then c else '-'

/-- Whether a list starts with a hyphen. -/
def headDash : List Char → Bool
  | [] => false
  | c :: _ => c == '-'

/-- Model of the global hyphen-run replacement: collapse every maximal
run of hyphens to a single hyphen. -/
def collapseDashes : List Char → List Char
  | [] => []
  | c :: r =>
    if c == '-' && headDash r then collapseDashes r
    else c :: collapseDashes r

/-- The `^-` half of `replace(/^-|-$/g, "")`: drop one leading hyphen. -/
def dropLeadingDash : List Char → List Char
  | [] => []
  | c :: r => if c = '-' then r else c :: r

/-- The `-$` half of `replace(/^-|-$/g, "")`: drop one trailing hyphen. -/
def dropTrailingDash : List Char → List Char
  | [] => []
  | [c] => if c = '-' then [] else [c]
  | c :: d :: r => c :: dropTrailingDash (d :: r)

/-- `generateSlug` from main.ts lines 238-246. -/
def generateSlug (src : String) : String :=
  let seg := ((splitOnChar '/' src.data).getLast?).getD []
  let filename := if seg = [] then src.data else seg
  let nameNoExt := stripJsExtChars filename
  let mapped := nameNoExt.map (fun c => slugChar (Char.toLower c))
  String.mk (dropTrailingDash (dropLeadingDash (collapseDashes mapped)))

/-- Characters permitted in a slug: lowercase ASCII letter, digit, hyphen. -/
def isSlugChar (c : Char) : Bool :=
  ('a' ≤ c && c ≤ 'z') || ('0' ≤ c && c ≤ '9') || c == '-'

/-- `noDD l = true` iff `l` has no two adjacent hyphens. -/
def noDD : List Char → Bool
  | [] => true
  | c :: r => (!(c == '-' && headDash r)) && noDD r

/-- Whether a list ends with a hyphen. -/
def endsDash : List Char → Bool
  | [] => false
  | [c] => c == '-'
  | _ :: d :: r => endsDash (d :: r)

/-! ## The parsed descriptor and `parseImageData` (main.ts lines 124-236) -/

/-- Outcome of running the host regular-expression engine for the
configurable `settings.captionRegex`: the constructor `throws` models
`new RegExp(pattern)` raising on a malformed pattern, `noMatch` models
`caption.match(...)` returning `null`, and `matched g` a successful match
whose capture group 1 is `g` (`none` when the group did not participate). -/
inductive RegexOutcome where
  | throws
  | noMatch
  | matched (group1 : Option String)
deriving Repr, DecidableEq

/-- The caption-regex extraction block, main.ts lines 211-217:

```ts
try {
  const match = result.caption.match(new RegExp(this.settings.captionRegex));
  result.caption = match?.[1] || "";
} catch (e) {}
```

On `throws` the `catch` swallows the exception before any assignment, so
the caption is left unchanged; otherwise `match?.[1] || ""` yields group 1
when it is a non-empty string and `""` in every other case. -/
def regexExtractStep (outcome : RegexOutcome) (caption : String) : String :=
  match outcome with
  | RegexOutcome.throws => caption
  | RegexOutcome.noMatch => ""
  | RegexOutcome.matched none => ""
  | RegexOutcome.matched (some g) => if g = "" then "" else g

/-- The parsed record built by `parseImageData` (main.ts lines 131-144).
The TypeScript field `class` is called `cls` here (`class` is a Lean
keyword); all other field names match the source. -/
structure ImageData where
  dataNom : String
  caption : String
  width : Option String
  printwidth : Option String
  col : Option String
  printcol : Option String
  cls : List String
  poster : Option String
  imgX : Option String
  imgY : Option String
  imgW : Option String
  id : String
deriving Repr, DecidableEq

/-- The freshly-initialised result record of `parseImageData` (main.ts
lines 131-144); it is also exactly what the sentinel branch returns. -/
def initImageData (src : String) : ImageData :=
  { dataNom := "image", caption := "", width := none, printwidth := none,
    col := none, printcol := none, cls := [], poster := none, imgX := none,
    imgY := none, imgW := none, id := generateSlug src }

/-- The `switch (key.toLowerCase())` body of `parseImageData` (main.ts
lines 168-202): assign the value to the field selected by the lowercased
key; unknown keys leave the record unchanged. -/
def kvAssign (r : ImageData) (key value : String) : ImageData :=
  if key = "caption" then { r with caption := value }
  else if key = "width" then { r with width := some value }
  else if key = "printwidth" then { r with printwidth := some value }
  else if key = "col" then { r with col := some value }
  else if key = "printcol" then { r with printcol := some value }
  else if key = "class" then
    { r with cls := (splitOnChar ',' value.data).map (fun l => String.mk (trimChars l)) }
  else if key = "poster" then { r with poster := some value }
  else if key = "imgx" then { r with imgX := some value }
  else if key = "imgy" then { r with imgY := some value }
  else if key = "imgw" then { r with imgW := some value }
  else if key = "id" then { r with id := value }
  else r

/-- One iteration of the key:value loop of `parseImageData` (main.ts lines
161-204): split on the first `:`, rejoin the remainder, trim the value,
dispatch on the lowercased key; segments without `:` are skipped. -/
def kvStep (r : ImageData) (part : String) : ImageData :=
  if part.data.contains ':' then
    let pieces := splitOnChar ':' part.data
    kvAssign r (String.mk (lowerChars (pieces.headD [])))
      (String.mk (trimChars (joinSep ':' pieces.tail)))
  else r

/-- `altText.split("|").map(part => part.trim())` (main.ts line 129). -/
def splitTrim (altText : String) : List String :=
  (splitOnChar '|' altText.data).map (fun l => String.mk (trimChars l))

/-- The recognised leading kind tokens (main.ts line 156), case-sensitive. -/
def recognizedKinds : List String :=
  ["imagenote", "image", "imageGrid", "figure", "video"]

/-- The sentinel test of main.ts lines 147-148:
`altText === src || altText.replace(/ > /, "#") === src`. -/
def isSentinel (altText src : String) : Bool :=
  altText == src || replaceFirst altText " > " "#" == src

/-- The segment-interpretation stage of `parseImageData` (main.ts lines
153-208), i.e. the type-detection branch and the key:value loop, before
caption resolution is applied. -/
def parseStage2 (altText src : String) : ImageData :=
  let parts := splitTrim altText
  if 1 < parts.length ∧ (parts.headD "") ∈ recognizedKinds then
    (parts.drop 1).foldl kvStep { initImageData src with dataNom := parts.headD "" }
  else
    { initImageData src with caption := parts.headD "" }

/-! ## Caption resolution (main.ts lines 210-233) -/

/-- Characters matched by `.` in a JavaScript regex (everything except the
line terminators). -/
def dotChar (c : Char) : Bool :=
  !(c == '\n' || c == '\r' || c.val == 0x2028 || c.val == 0x2029)

/-- The lazy search for the closing `>>` of `/<<(.*?)>>/`: starting after a
`<<`, accumulate `.`-matchable characters until the first `>>`; return the
accumulated middle and the remainder after the `>>`, or `none` when no
closer is reachable. -/
def findCloseAngle : List Char → Option (List Char × List Char)
  | [] => none
  | c :: r =>
    if c == '>' && headIs '>' r then some ([], r.tail)
    else if dotChar c then
      match findCloseAngle r with
      | some (mid, rest) => some (c :: mid, rest)
      | none => none
    else none

/-- Fuel-indexed engine for `caption.replace(/<<(.*?)>>/g, ...)` (main.ts
lines 230-233): at each position, a `<<` followed by a reachable `>>` is
rewritten to `[[mid]]` and scanning continues after the closer; a `<<`
with no reachable closer is left in place and scanning resumes at the
second `<`.  Each step strictly shrinks the list, so fuel equal to the
input length (supplied by `wikiRewrite`) always suffices. -/
def wikiAuxF : Nat → List Char → List Char
  | 0, l => l
  | _ + 1, [] => []
  | n + 1, c :: r =>
    if c == '<' && headIs '<' r then
      match findCloseAngle r.tail with
      | some (mid, rest) => '[' :: '[' :: (mid ++ ']' :: ']' :: wikiAuxF n rest)
      | none => '<' :: wikiAuxF n r
    else c :: wikiAuxF n r

/-- Model of `caption.replace(/<<(.*?)>>/g, (_, t) => "[[" + t + "]]")`. -/
def wikiRewrite (s : String) : String :=
  String.mk (wikiAuxF s.data.length s.data)

/-- The filename placeholder token (main.ts line 13). -/
def filenamePlaceholder : String := "%"

/-- The filename-with-extension placeholder token (main.ts line 14). -/
def filenameExtensionPlaceholder : String := "%.%"

/-- The characters the source treats as path separators in the filename
regexes (`[^\\/]` excludes both `/` and `\`). -/
def pathSep (c : Char) : Bool := c == '/' || c == '\\'

/-- The last path segment of `src`: the maximal separator-free suffix. -/
def lastSegChars (src : String) : List Char :=
  (src.data.reverse.takeWhile (fun c => !pathSep c)).reverse

/-- ASCII `\w` of JavaScript regexes. -/
def isWordChar (c : Char) : Bool := c.isAlpha || c.isDigit || c == '_'

/-- Model of `src.match(/[^\\/]+$/)?.[0] || ""` (main.ts lines 224-225):
the last path segment, or `""` when `src` ends in a separator. -/
def filenameWithExt (src : String) : String := String.mk (lastSegChars src)

/-- Model of `src.match(/[^\\/]+(?=\.\w+$)|[^\\/]+$/)?.[0] || ""` (main.ts
lines 221-222).  The first alternative succeeds exactly when the last path
segment splits as a non-empty stem, a dot, and a non-empty all-word-char
extension reaching the end of the string (only the last dot can qualify,
since `\w` excludes dots); the backtracking of the greedy `[^\\/]+` then
yields the stem.  Otherwise the second alternative returns the whole last
segment, and an empty last segment gives `""`. -/
def filenameNoExt (src : String) : String :=
  let seg := lastSegChars src
  let r := seg.reverse
  let ext := r.takeWhile isWordChar
  match r.drop ext.length with
  | '.' :: stemRev =>
    if ext = [] ∨ stemRev = [] then String.mk seg else String.mk stemRev.reverse
  | _ => String.mk seg

/-- The caption-resolution tail of `parseImageData` (main.ts lines 210-233):
the guarded regex-extraction block, the three placeholder substitutions,
then the `<<text>>` to `[[text]]` rewrite.  `captionRegex = none` models an
unset setting and `some ""` the falsy empty setting; both skip extraction,
as does an empty caption. -/
def resolveCaption (engine : String → String → RegexOutcome)
    (captionRegex : Option String) (src caption : String) : String :=
  let c1 := match captionRegex with
    | some pat =>
      if pat ≠ "" ∧ caption ≠ "" then regexExtractStep (engine pat caption) caption
      else caption
    | none => caption
  let c2 :=
    if c1 = filenamePlaceholder then filenameNoExt src
    else if c1 = filenameExtensionPlaceholder then filenameWithExt src
    else if c1 = "\\" ++ filenamePlaceholder then filenamePlaceholder
    else c1
  wikiRewrite c2

/-- `parseImageData` (main.ts lines 124-236), with the element's `alt` and
`src` attributes passed as strings and the host regex engine as an oracle:
the sentinel branch returns the freshly-initialised record immediately
(skipping all further parsing), and otherwise segment interpretation is
followed by caption resolution. -/
def parseImageData (engine : String → String → RegexOutcome)
    (captionRegex : Option String) (altText src : String) : ImageData :=
  if isSentinel altText src then initImageData src
  else
    let d := parseStage2 altText src
    { d with caption := resolveCaption engine captionRegex src d.caption }

/-- A regex engine whose configured pattern always fails to compile
(models e.g. the malformed pattern `"("`). -/
def throwingEngine : String → String → RegexOutcome :=
  fun _ _ => RegexOutcome.throws

/-- A regex engine whose configured pattern compiles but never matches. -/
def noMatchEngine : String → String → RegexOutcome :=
  fun _ _ => RegexOutcome.noMatch

/-! ## `parseAltAttributes` (main.ts lines 1045-1123, third revision) -/

/-- The record built by `parseAltAttributes`.  TypeScript's `class` field is
`cls`; the quoted hyphenated fields `"print-col"`, `"print-width"`,
`"print-row"`, `"print-height"`, `"print-x"`, `"print-y"`, `"img-w"` are
camel-cased. -/
structure AltAttrs where
  caption : String
  cls : List String
  width : Option String
  col : Option String
  printCol : Option String
  printWidth : Option String
  printRow : Option String
  printHeight : Option String
  printX : Option String
  printY : Option String
  imgW : Option String
  dataNom : String
deriving Repr, DecidableEq

/-- The initial `parseAltAttributes` record (main.ts lines 1046-1059). -/
def altInit : AltAttrs :=
  { caption := "", cls := [], width := none, col := none, printCol := none,
    printWidth := none, printRow := none, printHeight := none, printX := none,
    printY := none, imgW := none, dataNom := "image" }

/-- One iteration of the segment loop of `parseAltAttributes` (main.ts
lines 1066-1120): a segment with `:` dispatches on the lowercased key with
aliases; a non-empty segment without `:` becomes the caption when none is
set yet. -/
def altStep (r : AltAttrs) (part : String) : AltAttrs :=
  if part.data.contains ':' then
    let pieces := splitOnChar ':' part.data
    let key := String.mk (lowerChars (pieces.headD []))
    let value := String.mk (trimChars (joinSep ':' pieces.tail))
    if key = "caption" then { r with caption := value }
    else if key = "class" then
      { r with cls := (splitOnChar ',' value.data).map (fun l => String.mk (trimChars l)) }
    else if key = "width" then { r with width := some value }
    else if key = "col" then { r with col := some value }
    else if key = "print-col" ∨ key = "printcol" then { r with printCol := some value }
    else if key = "print-width" ∨ key = "printwidth" then { r with printWidth := some value }
    else if key = "print-row" ∨ key = "printrow" then { r with printRow := some value }
    else if key = "print-height" ∨ key = "printheight" then { r with printHeight := some value }
    else if key = "img-x" ∨ key = "imgx" then { r with printX := some value }
    else if key = "img-y" ∨ key = "imgy" then { r with printY := some value }
    else if key = "img-w" ∨ key = "imgw" then { r with imgW := some value }
    else if key = "type" ∨ key = "datanom" then { r with dataNom := value }
    else r
  else if part ≠ "" ∧ r.caption = "" then { r with caption := part }
  else r

/-- `parseAltAttributes` (main.ts lines 1045-1123): empty input returns the
initial record; otherwise whitespace runs are collapsed, the text is
trimmed, split on `|` into trimmed segments, and the segments are folded
through `altStep`. -/
def parseAltAttributes (altText : String) : AltAttrs :=
  if altText = "" then altInit
  else
    let cleaned := jsTrim (String.mk (collapseWsL altText.data))
    let parts := (splitOnChar '|' cleaned.data).map (fun l => String.mk (trimChars l))
    parts.foldl altStep altInit

/-! ## Source-text grid extraction (main.ts lines 1218-1275) -/

/-- The character loop of `extractWikilinks` (main.ts lines 1218-1251),
carried as explicit state: the `!` + `[` opener (which consumes both
characters and resets the state even inside a token), bracket-depth
counting on `[` and `]`, and a push when the depth returns to zero. -/
def exGo : List Char → Bool → Nat → String → List String → List String
  | [], _, _, _, acc => acc.reverse
  | '!' :: '[' :: rest, _, _, _, acc => exGo rest true 1 "![" acc
  | c :: rest, inWl, n, cur, acc =>
    if inWl then
      let cur2 := cur.push c
      if c = '[' then exGo rest true (n + 1) cur2 acc
      else if c = ']' then
        if n = 1 then exGo rest false 0 "" (cur2 :: acc)
        else exGo rest true (n - 1) cur2 acc
      else exGo rest true n cur2 acc
    else exGo rest false n cur acc

/-- `extractWikilinks` (main.ts lines 1218-1251). -/
def extractWikilinks (source : String) : List String :=
  exGo source.data false 0 "" []

/-- The lazy parameter group of `/!\[\[\s*([^|\]]+?)\s*(?:\|([\s\S]+?))?\]\]/`:
grow the parameter text one character at a time until `]]` follows. -/
def gmParams (g1 acc : List Char) : List Char → Option (String × String)
  | [] => none
  | c :: r =>
    let acc2 := acc ++ [c]
    match r with
    | ']' :: ']' :: _ => some (String.mk g1, String.mk acc2)
    | _ => gmParams g1 acc2 r

/-- The literal `]]` closer of the grid regex, with an unmatched optional
parameter group (JavaScript leaves group 2 `undefined`, read back as `""`). -/
def gmClose (g1 : List Char) : List Char → Option (String × String)
  | ']' :: ']' :: _ => some (String.mk g1, "")
  | _ => none

/-- The optional `(?:\|([\s\S]+?))?` group: prefer entering the group, and
backtrack to skipping it when the group cannot complete. -/
def gmOpt (g1 : List Char) (l : List Char) : Option (String × String) :=
  match l with
  | '|' :: r =>
    match gmParams g1 [] r with
    | some res => some res
    | none => gmClose g1 l
  | _ => gmClose g1 l

/-- The `\s*` after group 1 (greedy, backtracking), then the optional
parameter group and the closer. -/
def gmAfterG1 (g1 : List Char) (l : List Char) : Option (String × String) :=
  firstSome ((downFrom (wsCount l)).map (fun k => gmOpt g1 (l.drop k)))

/-- The lazy `([^|\]]+?)` path group: at least one character excluding `|`
and `]`, extended one character at a time, trying the continuation after
each extension. -/
def gmG1 (acc : List Char) : List Char → Option (String × String)
  | [] => none
  | c :: r =>
    if c = '|' ∨ c = ']' then none
    else
      let acc2 := acc ++ [c]
      match gmAfterG1 acc2 r with
      | some res => some res
      | none => gmG1 acc2 r

/-- An attempted match of the grid regex anchored at the current position:
the literal `![[`, greedy-backtracking `\s*`, then the path group. -/
def gridMatchAt : List Char → Option (String × String)
  | '!' :: '[' :: '[' :: rest =>
    firstSome ((downFrom (wsCount rest)).map (fun k => gmG1 [] (rest.drop k)))
  | _ => none

/-- Leftmost match of `/!\[\[\s*([^|\]]+?)\s*(?:\|([\s\S]+?))?\]\]/`,
returning (group 1, group 2 or `""`). -/
def gridMatch : List Char → Option (String × String)
  | [] => none
  | c :: r =>
    match gridMatchAt (c :: r) with
    | some res => some res
    | none => gridMatch r

/-- The path/parameter split performed by `processGridImage` (main.ts lines
1253-1261): collapse whitespace, trim, run the grid regex, and trim both
captured groups.  The subsequent vault-file resolution and element creation
are host facilities; the parameters then flow into `parseAltAttributes`. -/
def processGridSplit (tok : String) : Option (String × String) :=
  let clean := jsTrim (String.mk (collapseWsL tok.data))
  match gridMatch clean.data with
  | some (p1, p2) => some (jsTrim p1, jsTrim p2)
  | none => none

/-! ## Video embed synthesis (main.ts lines 408-440 and 334-348) -/

/-- Characters of a YouTube video id (`[a-zA-Z0-9_-]`). -/
def idChar (c : Char) : Bool := c.isAlpha || c.isDigit || c == '_' || c == '-'

/-- Characters of a Vimeo video id (`[0-9]`). -/
def digitChar (c : Char) : Bool := c.isDigit

/-- Try the alternation prefixes in order at the current position; a prefix
only succeeds when at least one id character follows it. -/
def tryPrefixes (ps : List String) (pred : Char → Bool) (l : List Char) : Option String :=
  match ps with
  | [] => none
  | p :: rest =>
    if p.data.isPrefixOf l then
      let run := (l.drop p.data.length).takeWhile pred
      if run = [] then tryPrefixes rest pred l else some (String.mk run)
    else tryPrefixes rest pred l

/-- Leftmost match of a `(?:p1|p2|...)(chars+)` regex: scan positions left
to right, trying the alternation at each. -/
def scanExtract (ps : List String) (pred : Char → Bool) : List Char → Option String
  | [] => none
  | c :: r =>
    match tryPrefixes ps pred (c :: r) with
    | some s => some s
    | none => scanExtract ps pred r

/-- The YouTube alternation of main.ts line 420, in source order. -/
def ytPrefixes : List String :=
  ["youtube.com/watch?v=", "youtu.be/", "youtube.com/embed/"]

/-- The Vimeo alternation of main.ts line 432, in source order. -/
def vimeoPrefixes : List String := ["vimeo.com/", "player.vimeo.com/video/"]

/-- The HTML template string returned by `createYouTubeEmbed` (main.ts
line 427), with the embed URL containing the extracted video id. -/
def ytEmbedHtml (videoId : String) : String :=
  "<youtube-embed><iframe scrolling=\x27no\x27 width=\x27640\x27 height=\x27360\x27 allow=\x27autoplay; fullscreen\x27 src=\x27\x27 data-src=\x27https://www.youtube.com/embed/"
    ++ videoId ++ "?autoplay=1&rel=0\x27></iframe><button aria-label=\x27Play video\x27></button></youtube-embed>"

/-- The HTML template string returned by `createVimeoEmbed` (main.ts
line 439), with the embed URL containing the extracted video id. -/
def vimeoEmbedHtml (videoId : String) : String :=
  "<vimeo-embed><iframe scrolling=\x27no\x27 width=\x27640\x27 height=\x27360\x27 allow=\x27autoplay; fullscreen\x27 src=\x27\x27 data-src=\x27https://player.vimeo.com/video/"
    ++ videoId ++ "?autoplay=1&rel=0\x27></iframe><button aria-label=\x27Play video\x27></button></vimeo-embed>"

/-- `createYouTubeEmbed` (main.ts lines 418-428). -/
def createYouTubeEmbed (url : String) : Option String :=
  match scanExtract ytPrefixes idChar url.data with
  | some vid => some (ytEmbedHtml vid)
  | none => none

/-- `createVimeoEmbed` (main.ts lines 430-440). -/
def createVimeoEmbed (url : String) : Option String :=
  match scanExtract vimeoPrefixes digitChar url.data with
  | some vid => some (vimeoEmbedHtml vid)
  | none => none

/-- `createVideoContent` (main.ts lines 408-416): substring routing on
`"yout"`, then `"vimeo"`; note that a URL containing `"yout"` is handed to
the YouTube extractor only, whatever its shape. -/
def createVideoContent (url : String) : Option String :=
  if strIncludes url "yout" then createYouTubeEmbed url
  else if strIncludes url "vimeo" then createVimeoEmbed url
  else none

/-- What the video branch of `insertFigureWithCaption` places inside the
`div.video` container (main.ts lines 342-348): the synthesized fragment
when `createVideoContent` yields one, otherwise the media element itself. -/
inductive VideoInner where
  | embedFragment (html : String)
  | mediaElement
deriving Repr, DecidableEq

/-- The dispatch of main.ts lines 343-348. -/
def videoInnerContent (src : String) : VideoInner :=
  match createVideoContent src with
  | some html => VideoInner.embedFragment html
  | none => VideoInner.mediaElement

/-! ## Width-attribute sync in the mutation observer (main.ts lines 39 and
75-79; identically lines 498 and 526-532 of the second revision) -/

/-- `imageEmbedContainer.getAttribute("width") || ""` (main.ts line 39):
`getAttribute` yields `null` for an absent attribute, which `|| ""` turns
into the empty string. -/
def getWidthAttr (containerWidth : Option String) : String :=
  match containerWidth with
  | some w => w
  | none => ""

/-- The final width sync of the observer callback (main.ts lines 75-79):
a truthy width is written with `setAttribute`, otherwise the attribute is
removed with `removeAttribute`.  The media element's attributes are
modelled as a partial map from attribute name to value. -/
def syncEmbedWidth (containerWidth : Option String)
    (attrs : String → Option String) : String → Option String :=
  let width := getWidthAttr containerWidth
  if width = "" then fun a => if a = "width" then none else attrs a
  else fun a => if a = "width" then some width else attrs a

/-! ## Theorems -/

/-- C1: for every `src`, parsing an alt string that equals `src` (or that
equals `src` after its first `" > "` is replaced by `"#"`) returns the
unauthored descriptor — caption empty and kind `image` — regardless of any
remaining text and of the configured caption regex: the sentinel branch
returns the freshly-initialised record before any key:value parsing or
caption resolution runs. -/
theorem c1_sentinel_returns_unauthored
    (engine : String → String → RegexOutcome) (captionRegex : Option String)
    (altText src : String) (h : isSentinel altText src = true) :
    parseImageData engine captionRegex altText src = initImageData src := by
  simp [parseImageData, h]

/-- Witness for C1 at the anchor-link alt text `"a > b"` on `src = "a#b"`,
with arbitrary trailing-parse content irrelevant by the theorem. -/
theorem c1_witness :
    isSentinel "a > b" "a#b" = true ∧
    parseImageData noMatchEngine (some "x") "a > b" "a#b" = initImageData "a#b" :=
  ⟨by decide,
   c1_sentinel_returns_unauthored noMatchEngine (some "x") "a > b" "a#b" (by decide)⟩

/-- C3 counterexample: with a malformed configured pattern (modelled by the
engine throwing on compilation) and the non-empty parsed caption `"Hello"`,
the resolved caption is the raw text `"Hello"`, not the empty string the
claim requires. -/
theorem c3_counterexample :
    (parseImageData throwingEngine (some "(") "Hello" "pic.png").caption = "Hello" ∧
    ("Hello" : String) ≠ "" :=
  ⟨rfl, by decide⟩

/-- C3 amended: when the configured pattern fails to compile, resolution
never aborts (the model is total) and behaves exactly as if no pattern were
configured — the extraction step is skipped and the caption keeps the raw
parsed text, subject only to the ordinary placeholder and link-rewrite
steps. -/
theorem c3_invalid_regex_keeps_caption
    (engine : String → String → RegexOutcome) (pat altText src : String)
    (h : ∀ c, engine pat c = RegexOutcome.throws) :
    parseImageData engine (some pat) altText src =
      parseImageData engine none altText src := by
  unfold parseImageData
  split
  · rfl
  · unfold resolveCaption
    simp [h, regexExtractStep]

/-- Witness for C3's amended theorem at the malformed pattern `"("`. -/
theorem c3_witness :
    parseImageData throwingEngine (some "(") "Hello" "pic.png" =
      parseImageData throwingEngine none "Hello" "pic.png" :=
  c3_invalid_regex_keeps_caption throwingEngine "(" "Hello" "pic.png" (fun _ => rfl)

/-- C6: the bracket-depth scanner extracts the wikilink with a nested
`[[Note]]` inside its parameter portion as one token; the two-line source
yields exactly two tokens in order; and the second token's path/parameter
split followed by `parseAltAttributes` yields caption `"B"`. -/
theorem c6_bracket_depth_extraction :
    extractWikilinks "![[a.png|caption:See [[Note]]]]" =
      ["![[a.png|caption:See [[Note]]]]"] ∧
    extractWikilinks "![[a.png]]\n![[b.png|caption:B]]" =
      ["![[a.png]]", "![[b.png|caption:B]]"] ∧
    processGridSplit "![[b.png|caption:B]]" = some ("b.png", "caption:B") ∧
    (parseAltAttributes "caption:B").caption = "B" :=
  ⟨rfl, rfl, rfl, rfl⟩

/-- C7 counterexample: the URL `"https://vimeo.com/123?from=youtube"`
matches the Vimeo pattern (the Vimeo extractor yields id `"123"`), yet
`createVideoContent` returns `none` — the substring router sees `"yout"`
and consults only the YouTube extractor — so the media element itself is
placed in the video container, contradicting the claim that every
Vimeo-form URL produces an embed fragment. -/
theorem c7_counterexample :
    scanExtract vimeoPrefixes digitChar ("https://vimeo.com/123?from=youtube").data
      = some "123" ∧
    createVideoContent "https://vimeo.com/123?from=youtube" = none ∧
    videoInnerContent "https://vimeo.com/123?from=youtube" = VideoInner.mediaElement :=
  ⟨rfl, rfl, rfl⟩

/-- C7 amended: the fragment generator routes on the substring `"yout"`
first and `"vimeo"` second; whichever extractor is chosen produces a
fragment referencing exactly the extracted video id (via the embed
templates), a URL containing neither substring yields `none`, and whenever
the generator yields `none` the media element itself is placed in the video
container.  A Vimeo-form URL that also contains `"yout"` is therefore
routed to the YouTube extractor and falls back. -/
theorem c7_video_dispatch (url : String) :
    (strIncludes url "yout" = true →
      createVideoContent url = createYouTubeEmbed url) ∧
    (strIncludes url "yout" = false → strIncludes url "vimeo" = true →
      createVideoContent url = createVimeoEmbed url) ∧
    (strIncludes url "yout" = false → strIncludes url "vimeo" = false →
      createVideoContent url = none) ∧
    createYouTubeEmbed url = Option.map ytEmbedHtml (scanExtract ytPrefixes idChar url.data) ∧
    createVimeoEmbed url = Option.map vimeoEmbedHtml (scanExtract vimeoPrefixes digitChar url.data) ∧
    (createVideoContent url = none → videoInnerContent url = VideoInner.mediaElement) := by
  refine ⟨?_, ?_, ?_, ?_, ?_, ?_⟩
  · intro h; simp [createVideoContent, h]
  · intro h1 h2; simp [createVideoContent, h1, h2]
  · intro h1 h2; simp [createVideoContent, h1, h2]
  · unfold createYouTubeEmbed
    cases scanExtract ytPrefixes idChar url.data <;> rfl
  · unfold createVimeoEmbed
    cases scanExtract vimeoPrefixes digitChar url.data <;> rfl
  · intro h; simp [videoInnerContent, h]

set_option maxRecDepth 4000 in
/-- Witness for C7's amended theorem: the spec's end-to-end example URL
`"https://youtu.be/abc123"` produces the fragment referencing `abc123`. -/
theorem c7_witness :
    createVideoContent "https://youtu.be/abc123" = some (ytEmbedHtml "abc123") := by
  have h := (c7_video_dispatch "https://youtu.be/abc123").1 (by decide)
  exact h.trans (by decide)

/-- C8: after the observer's width sync, the media element's width
attribute equals the wrapper's override when that override is present and
non-empty, and is entirely absent (`none` in the attribute map, i.e.
`removeAttribute`) when the override is absent or empty — never present
with an empty value. -/
theorem c8_width_sync (w : Option String) (attrs : String → Option String) :
    syncEmbedWidth w attrs "width" =
      (match w with
       | some v => if v = "" then none else some v
       | none => none) := by
  cases w with
  | none => simp [syncEmbedWidth, getWidthAttr]
  | some v =>
    by_cases hv : v = "" <;> simp [syncEmbedWidth, getWidthAttr, hv]

/-- C9 counterexample: on the claim's own example
`"image|My caption|width:200"`, `parseAltAttributes` makes the leading
`"image"` segment the caption (it is itself a colon-free segment arriving
while no caption is set), not `"My caption"`; and `parseImageData`, which
does consume `"image"` as the kind, simply ignores the colon-free
`"My caption"` segment, leaving the caption empty. -/
theorem c9_counterexample :
    (parseAltAttributes "image|My caption|width:200").caption = "image" ∧
    (parseAltAttributes "image|My caption|width:200").width = some "200" ∧
    (parseAltAttributes "image|My caption|width:200").caption ≠ "My caption" ∧
    (parseImageData noMatchEngine none "image|My caption|width:200" "x.png").caption = "" :=
  ⟨rfl, rfl, by decide, rfl⟩

/-- C9 amended: in `parseAltAttributes` every segment is processed
uniformly — a non-empty colon-free segment becomes the caption exactly when
no caption has been set yet (including a leading kind-like token, which is
itself captured as the caption), and a colon-free segment arriving after a
caption is set leaves the record unchanged; in `parseImageData`'s
new-syntax path colon-free segments after the kind token are ignored, so
`"image|My caption|width:200"` yields caption `"image"` (and width `"200"`)
under `parseAltAttributes` and caption `""` under `parseImageData`. -/
theorem c9_bare_caption_rule :
    (∀ (r : AltAttrs) (part : String), part.data.contains ':' = false →
        part ≠ "" → r.caption = "" → altStep r part = { r with caption := part }) ∧
    (∀ (r : AltAttrs) (part : String), part.data.contains ':' = false →
        ¬(part ≠ "" ∧ r.caption = "") → altStep r part = r) ∧
    parseAltAttributes "image|My caption|width:200" =
      { altInit with caption := "image", width := some "200" } := by
  refine ⟨?_, ?_, rfl⟩
  · intro r part h1 h2 h3
    unfold altStep
    rw [if_neg (by rw [h1]; simp), if_pos ⟨h2, h3⟩]
  · intro r part h1 h2
    unfold altStep
    rw [if_neg (by rw [h1]; simp), if_neg h2]

/-- Witness for C9's amended theorem: a bare segment fills the unset
caption. -/
theorem c9_witness :
    altStep altInit "My caption" = { altInit with caption := "My caption" } :=
  c9_bare_caption_rule.1 altInit "My caption" (by decide) (by decide) rfl

/-- The key dispatch never touches the `dataNom` field. -/
theorem kvAssign_dataNom (r : ImageData) (key value : String) :
    (kvAssign r key value).dataNom = r.dataNom := by
  unfold kvAssign
  simp only [apply_ite ImageData.dataNom]
  simp only [ite_self]

/-- The key:value loop never touches the `dataNom` field. -/
theorem kvStep_dataNom (r : ImageData) (part : String) :
    (kvStep r part).dataNom = r.dataNom := by
  unfold kvStep
  split
  · exact kvAssign_dataNom ..
  · rfl

/-- Folding the key:value loop never touches the `dataNom` field. -/
theorem foldl_kvStep_dataNom (ps : List String) (r : ImageData) :
    (ps.foldl kvStep r).dataNom = r.dataNom := by
  induction ps generalizing r with
  | nil => rfl
  | cons p ps ih => rw [List.foldl_cons, ih, kvStep_dataNom]

/-- C2: outside the sentinel case, if the alt string splits into at least
two trimmed segments whose first is exactly one of the recognised kind
tokens, the parsed descriptor's kind is that token and the remaining
segments are folded through the key:value interpreter; otherwise the kind
is `image` and segment interpretation makes the first segment the caption
(legacy syntax), an unrecognised leading token included. -/
theorem c2_kind_detection
    (engine : String → String → RegexOutcome) (captionRegex : Option String)
    (altText src : String) (hns : isSentinel altText src = false) :
    ((1 < (splitTrim altText).length ∧ ((splitTrim altText).headD "") ∈ recognizedKinds) →
      (parseImageData engine captionRegex altText src).dataNom = (splitTrim altText).headD "" ∧
      parseStage2 altText src =
        ((splitTrim altText).drop 1).foldl kvStep
          { initImageData src with dataNom := (splitTrim altText).headD "" }) ∧
    (¬(1 < (splitTrim altText).length ∧ ((splitTrim altText).headD "") ∈ recognizedKinds) →
      (parseImageData engine captionRegex altText src).dataNom = "image" ∧
      (parseStage2 altText src).caption = (splitTrim altText).headD "") := by
  constructor
  · intro h2
    have hs : parseStage2 altText src =
        ((splitTrim altText).drop 1).foldl kvStep
          { initImageData src with dataNom := (splitTrim altText).headD "" } := by
      unfold parseStage2
      rw [if_pos h2]
    refine ⟨?_, hs⟩
    unfold parseImageData
    rw [hns]
    simp only [Bool.false_eq_true, if_false, hs, foldl_kvStep_dataNom]
  · intro h2
    have hs : parseStage2 altText src =
        { initImageData src with caption := (splitTrim altText).headD "" } := by
      unfold parseStage2
      rw [if_neg h2]
    refine ⟨?_, by rw [hs]⟩
    unfold parseImageData
    rw [hns]
    simp only [Bool.false_eq_true, if_false, hs]
    rfl

/-- Witness for C2 at the recognised leading token `"video"`. -/
theorem c2_witness :
    (parseImageData noMatchEngine none "video|caption:Hi" "v.mp4").dataNom = "video" := by
  have h := (c2_kind_detection noMatchEngine none "video|caption:Hi" "v.mp4" (by decide)).1
    (by constructor <;> decide)
  exact h.1.trans (by decide)

/-- C4 counterexample: with no caption regex configured and the caption
parsed as exactly the filename placeholder, `src = "<<x>>.png"` resolves to
`"[[x]]"` — the link rewrite runs after placeholder substitution — whereas
the claim requires the last path segment stripped of its extension,
`"<<x>>"`. -/
theorem c4_counterexample :
    (parseImageData noMatchEngine none "%" "<<x>>.png").caption = "[[x]]" ∧
    filenameNoExt "<<x>>.png" = "<<x>>" ∧
    ("[[x]]" : String) ≠ "<<x>>" :=
  ⟨rfl, rfl, by decide⟩

/-- C4 amended: outside the sentinel case and with no caption regex
configured, a segment-stage caption equal to the filename placeholder
resolves to the last path segment of `src` stripped of its extension with
the `<<text>>`-to-`[[text]]` rewrite then applied; one equal to the
filename+extension placeholder resolves to the rewritten full last
segment; and one equal to the escaped placeholder resolves to the literal
placeholder.  For any `src` whose filename contains no `<<...>>` pattern
the rewrite is the identity and the claim's original wording holds. -/
theorem c4_placeholder_resolution
    (engine : String → String → RegexOutcome) (altText src : String)
    (hns : isSentinel altText src = false) :
    ((parseStage2 altText src).caption = filenamePlaceholder →
      (parseImageData engine none altText src).caption = wikiRewrite (filenameNoExt src)) ∧
    ((parseStage2 altText src).caption = filenameExtensionPlaceholder →
      (parseImageData engine none altText src).caption = wikiRewrite (filenameWithExt src)) ∧
    ((parseStage2 altText src).caption = "\\" ++ filenamePlaceholder →
      (parseImageData engine none altText src).caption = filenamePlaceholder) := by
  have hd : parseImageData engine none altText src =
      { parseStage2 altText src with
        caption := resolveCaption engine none src (parseStage2 altText src).caption } := by
    unfold parseImageData
    rw [hns]
    rfl
  refine ⟨?_, ?_, ?_⟩ <;> intro hc <;> rw [hd]
  · simp [resolveCaption, hc]
  · simp [resolveCaption, hc, filenamePlaceholder, filenameExtensionPlaceholder]
  · simp [resolveCaption, hc, filenamePlaceholder, filenameExtensionPlaceholder]
    decide

/-- Witness for C4's amended theorem at `altText = "%"`, `src = "a/b.png"`
(whose filename contains no angle brackets, so the rewrite is the
identity and the caption is exactly the stripped filename `"b"`). -/
theorem c4_witness :
    (parseImageData noMatchEngine none "%" "a/b.png").caption =
      wikiRewrite (filenameNoExt "a/b.png") ∧
    wikiRewrite (filenameNoExt "a/b.png") = "b" :=
  ⟨(c4_placeholder_resolution noMatchEngine "%" "a/b.png" (by decide)).1 (by decide),
   by decide⟩

/-- C5 counterexample: the caption `"<<a<<b>>c>>"` resolves (with no regex
configured and no placeholder involved) to `"[[a<<b]]c>>"`, and resolving
that output again yields `"[[a[[b]]c]]"` — the caption-resolution string
transform is not idempotent on its own output, contradicting the claim
that a second application always produces the same string. -/
theorem c5_counterexample :
    resolveCaption noMatchEngine none "pic.png" "<<a<<b>>c>>" = "[[a<<b]]c>>" ∧
    resolveCaption noMatchEngine none "pic.png" "[[a<<b]]c>>" = "[[a[[b]]c]]" ∧
    ("[[a[[b]]c]]" : String) ≠ "[[a<<b]]c>>" :=
  ⟨rfl, rfl, by decide⟩

/-- The lazy closer search succeeds on a bracket-free middle followed by
`>>`, returning exactly that middle. -/
theorem findCloseAngle_append (td : List Char)
    (h : ∀ c ∈ td, c ≠ '>' ∧ dotChar c = true) :
    findCloseAngle (td ++ ['>', '>']) = some (td, []) := by
  induction td with
  | nil => rfl
  | cons c td ih =>
    have hc := h c (List.mem_cons_self c td)
    have ih2 := ih (fun x hx => h x (List.mem_cons_of_mem c hx))
    have hcb : (c == '>') = false := by simp [hc.1]
    simp [findCloseAngle, hcb, hc.2, ih2]

/-- On a list containing no `<` the rewrite engine is the identity, for
any fuel. -/
theorem wikiAuxF_no_open (n : Nat) (l : List Char)
    (h : ∀ c ∈ l, c ≠ '<') : wikiAuxF n l = l := by
  induction n generalizing l with
  | zero => rfl
  | succ n ih =>
    cases l with
    | nil => rfl
    | cons c r =>
      have hc : (c == '<') = false := by simp [h c (List.mem_cons_self c r)]
      simp [wikiAuxF, hc, ih r (fun x hx => h x (List.mem_cons_of_mem c hx))]

/-- The rewrite engine on the empty list, for any fuel. -/
theorem wikiAuxF_nil (n : Nat) : wikiAuxF n [] = [] := by cases n <;> rfl

/-- C5 amended: each `<<text>>` occurrence is rewritten to `[[text]]` in a
single left-to-right pass — for any `text` free of angle brackets and line
terminators, `<<text>>` becomes `[[text]]` and the bracketed result is a
fixed point of the transform (no double-wrapping).  The transform is *not*
idempotent on arbitrary strings: when one rewritten occurrence's output
recombines with remaining text into a fresh `<<...>>` pattern (as in
`"<<a<<b>>c>>"`), a second resolution rewrites again. -/
theorem c5_wiki_rewrite_once (t : String)
    (h : ∀ c ∈ t.data, c ≠ '<' ∧ c ≠ '>' ∧ dotChar c = true) :
    wikiRewrite ("<<" ++ t ++ ">>") = "[[" ++ t ++ "]]" ∧
    wikiRewrite ("[[" ++ t ++ "]]") = "[[" ++ t ++ "]]" := by
  constructor
  · have hsu : ("<<" ++ t ++ ">>").data = '<' :: '<' :: (t.data ++ ['>', '>']) := rfl
    have hcl : findCloseAngle (t.data ++ ['>', '>']) = some (t.data, []) :=
      findCloseAngle_append t.data (fun c hc => ⟨(h c hc).2.1, (h c hc).2.2⟩)
    apply String.ext
    unfold wikiRewrite
    rw [hsu]
    show wikiAuxF ((t.data ++ ['>', '>']).length + 1 + 1)
        ('<' :: '<' :: (t.data ++ ['>', '>'])) = _
    rw [wikiAuxF]
    simp only [headIs, beq_self_eq_true, Bool.and_self, if_true, List.tail_cons, hcl,
      wikiAuxF_nil]
    rfl
  · have hsu : ("[[" ++ t ++ "]]").data = '[' :: '[' :: (t.data ++ [']', ']']) := rfl
    apply String.ext
    unfold wikiRewrite
    rw [hsu, wikiAuxF_no_open]
    intro c hc
    rcases List.mem_cons.mp hc with h1 | hc2
    · simp [h1]
    rcases List.mem_cons.mp hc2 with h1 | hc3
    · simp [h1]
    rcases List.mem_append.mp hc3 with h1 | h2
    · exact (h c h1).1
    · intro hlt
      rw [hlt] at h2
      simp at h2

/-- Witness for C5's amended theorem at the spec's example `"Target"`. -/
theorem c5_witness :
    wikiRewrite ("<<" ++ "Target" ++ ">>") = "[[" ++ "Target" ++ "]]" ∧
    wikiRewrite ("[[" ++ "Target" ++ "]]") = "[[" ++ "Target" ++ "]]" :=
  c5_wiki_rewrite_once "Target" (by decide)

/-- The character filter emits slug-charset characters only. -/
theorem isSlugChar_slugChar (c : Char) : isSlugChar (slugChar c) = true := by
  unfold slugChar
  split_ifs with h
  · rcases h with h1 | h1 <;> simp [isSlugChar, h1.1, h1.2]
  · decide

/-- Collapsing hyphen runs preserves the head character's hyphen-ness. -/
theorem headDash_collapseDashes (l : List Char) :
    headDash (collapseDashes l) = headDash l := by
  induction l with
  | nil => rfl
  | cons c r ih =>
    by_cases hb : (c == '-' && headDash r) = true
    · have h1 := (Bool.and_eq_true _ _).mp hb
      simp only [collapseDashes, if_pos hb, ih]
      show headDash r = (c == '-')
      rw [h1.2, h1.1]
    · simp only [collapseDashes, if_neg hb]
      rfl

/-- Collapsing hyphen runs leaves no two adjacent hyphens. -/
theorem noDD_collapseDashes (l : List Char) : noDD (collapseDashes l) = true := by
  induction l with
  | nil => rfl
  | cons c r ih =>
    by_cases hb : (c == '-' && headDash r) = true
    · rw [collapseDashes, if_pos hb]
      exact ih
    · simp only [collapseDashes, if_neg hb]
      show ((!(c == '-' && headDash (collapseDashes r))) && noDD (collapseDashes r)) = true
      have hb2 : (c == '-' && headDash r) = false := Bool.eq_false_iff.mpr hb
      rw [headDash_collapseDashes, ih, hb2]
      rfl

/-- Collapsing hyphen runs introduces no new characters. -/
theorem mem_collapseDashes {c : Char} {l : List Char}
    (h : c ∈ collapseDashes l) : c ∈ l := by
  induction l with
  | nil => simp [collapseDashes] at h
  | cons a r ih =>
    by_cases hb : (a == '-' && headDash r) = true
    · rw [collapseDashes, if_pos hb] at h
      exact List.mem_cons_of_mem a (ih h)
    · rw [collapseDashes, if_neg hb] at h
      rcases List.mem_cons.mp h with h1 | h2
      · exact h1 ▸ List.mem_cons_self a r
      · exact List.mem_cons_of_mem a (ih h2)

/-- Dropping a leading hyphen introduces no new characters. -/
theorem mem_dropLeadingDash {c : Char} {l : List Char}
    (h : c ∈ dropLeadingDash l) : c ∈ l := by
  cases l with
  | nil => simp [dropLeadingDash] at h
  | cons a r =>
    by_cases ha : a = '-'
    · rw [dropLeadingDash, if_pos ha] at h
      exact List.mem_cons_of_mem a h
    · rwa [dropLeadingDash, if_neg ha] at h

/-- The no-double-hyphen property passes to the tail. -/
theorem noDD_tail {c : Char} {l : List Char} (h : noDD (c :: l) = true) :
    noDD l = true := by
  have h2 : ((!(c == '-' && headDash l)) && noDD l) = true := h
  exact ((Bool.and_eq_true _ _).mp h2).2

/-- Dropping a leading hyphen preserves the no-double-hyphen property. -/
theorem noDD_dropLeadingDash {l : List Char} (h : noDD l = true) :
    noDD (dropLeadingDash l) = true := by
  cases l with
  | nil => rfl
  | cons a r =>
    by_cases ha : a = '-'
    · rw [dropLeadingDash, if_pos ha]
      exact noDD_tail h
    · rwa [dropLeadingDash, if_neg ha]

/-- On a no-double-hyphen list, dropping one leading hyphen leaves a list
not starting with a hyphen. -/
theorem headDash_dropLeadingDash {l : List Char} (h : noDD l = true) :
    headDash (dropLeadingDash l) = false := by
  cases l with
  | nil => rfl
  | cons a r =>
    by_cases ha : a = '-'
    · rw [dropLeadingDash, if_pos ha]
      have h2 : ((!(a == '-' && headDash r)) && noDD r) = true := h
      have h3 := ((Bool.and_eq_true _ _).mp h2).1
      subst ha
      simpa using h3
    · rw [dropLeadingDash, if_neg ha]
      simp [headDash, ha]

/-- Dropping a trailing hyphen introduces no new characters. -/
theorem mem_dropTrailingDash {c : Char} : ∀ {l : List Char},
    c ∈ dropTrailingDash l → c ∈ l := by
  intro l
  induction l with
  | nil => intro h; simp [dropTrailingDash] at h
  | cons a r ih =>
    intro h
    cases r with
    | nil =>
      by_cases ha : a = '-'
      · rw [dropTrailingDash, if_pos ha] at h
        cases h
      · rwa [dropTrailingDash, if_neg ha] at h
    | cons b r2 =>
      rw [dropTrailingDash] at h
      rcases List.mem_cons.mp h with h1 | h2
      · exact h1 ▸ List.mem_cons_self a (b :: r2)
      · exact List.mem_cons_of_mem a (ih h2)

/-- Dropping a trailing hyphen preserves a non-hyphen head. -/
theorem headDash_dropTrailingDash {l : List Char} (h : headDash l = false) :
    headDash (dropTrailingDash l) = false := by
  cases l with
  | nil => rfl
  | cons a r =>
    cases r with
    | nil =>
      have ha : ¬ a = '-' := by simpa [headDash] using h
      rw [dropTrailingDash, if_neg ha]
      exact h
    | cons b r2 =>
      rw [dropTrailingDash]
      exact h

/-- Dropping a trailing hyphen preserves the no-double-hyphen property. -/
theorem noDD_dropTrailingDash : ∀ {l : List Char}, noDD l = true →
    noDD (dropTrailingDash l) = true := by
  intro l
  induction l with
  | nil => intro _; rfl
  | cons a r ih =>
    intro h
    cases r with
    | nil =>
      by_cases ha : a = '-'
      · rw [dropTrailingDash, if_pos ha]
        rfl
      · rwa [dropTrailingDash, if_neg ha]
    | cons b r2 =>
      rw [dropTrailingDash]
      show ((!(a == '-' && headDash (dropTrailingDash (b :: r2)))) &&
        noDD (dropTrailingDash (b :: r2))) = true
      have h2 : ((!(a == '-' && headDash (b :: r2))) && noDD (b :: r2)) = true := h
      have hparts := (Bool.and_eq_true _ _).mp h2
      rw [ih hparts.2, Bool.and_true]
      cases haa : (a == '-') with
      | false => simp
      | true =>
        have h1 := hparts.1
        rw [haa] at h1
        have hb : headDash (b :: r2) = false := by simpa using h1
        rw [headDash_dropTrailingDash hb]
        simp

/-- On a no-double-hyphen list, dropping one trailing hyphen leaves a list
not ending with a hyphen. -/
theorem endsDash_dropTrailingDash : ∀ {l : List Char}, noDD l = true →
    endsDash (dropTrailingDash l) = false := by
  intro l
  induction l with
  | nil => intro _; rfl
  | cons a r ih =>
    intro h
    cases r with
    | nil =>
      by_cases ha : a = '-'
      · rw [dropTrailingDash, if_pos ha]
        rfl
      · rw [dropTrailingDash, if_neg ha]
        simp [endsDash, ha]
    | cons b r2 =>
      rw [dropTrailingDash]
      have hr : noDD (b :: r2) = true := noDD_tail h
      have htail := ih hr
      cases hdt : dropTrailingDash (b :: r2) with
      | nil =>
        have hbr : b = '-' := by
          cases r2 with
          | nil =>
            by_cases hb : b = '-'
            · exact hb
            · rw [dropTrailingDash, if_neg hb] at hdt
              cases hdt
          | cons x xs =>
            rw [dropTrailingDash] at hdt
            cases hdt
        have h2 : ((!(a == '-' && headDash (b :: r2))) && noDD (b :: r2)) = true := h
        have h3 := ((Bool.and_eq_true _ _).mp h2).1
        rw [hbr] at h3
        have ha : (a == '-') = false := by simpa [headDash] using h3
        show endsDash [a] = false
        simpa [endsDash] using ha
      | cons x xs =>
        show endsDash (x :: xs) = false
        rw [← hdt]
        exact htail

/-- The shape invariants of the full post-filter slug pipeline. -/
theorem slug_pipeline_shape (m : List Char) (hm : ∀ c ∈ m, isSlugChar c = true) :
    (dropTrailingDash (dropLeadingDash (collapseDashes m))).all isSlugChar = true ∧
    noDD (dropTrailingDash (dropLeadingDash (collapseDashes m))) = true ∧
    headDash (dropTrailingDash (dropLeadingDash (collapseDashes m))) = false ∧
    endsDash (dropTrailingDash (dropLeadingDash (collapseDashes m))) = false := by
  have hC : noDD (collapseDashes m) = true := noDD_collapseDashes m
  have hA : noDD (dropLeadingDash (collapseDashes m)) = true := noDD_dropLeadingDash hC
  refine ⟨?_, noDD_dropTrailingDash hA, ?_, endsDash_dropTrailingDash hA⟩
  · refine List.all_eq_true.mpr ?_
    intro c hc
    exact hm c (mem_collapseDashes (mem_dropLeadingDash (mem_dropTrailingDash hc)))
  · exact headDash_dropTrailingDash (headDash_dropLeadingDash hC)

/-- C10: for every `src`, the slug generator's output (it is a pure
function, hence deterministic) contains only lowercase ASCII letters,
digits and hyphens, never contains two consecutive hyphens, and never
starts or ends with a hyphen (an output of `""` is possible and satisfies
all three vacuously). -/
theorem c10_slug_shape (src : String) :
    (generateSlug src).data.all isSlugChar = true ∧
    noDD (generateSlug src).data = true ∧
    headDash (generateSlug src).data = false ∧
    endsDash (generateSlug src).data = false := by
  refine slug_pipeline_shape _ ?_
  intro c hc
  rcases List.mem_map.mp hc with ⟨a, _, ha⟩
  exact ha ▸ isSlugChar_slugChar (Char.toLower a)
